import Mathlib

/-!
Verification of the Windows porting layer (`src/windows/port.cc`) of gperftools.

The file shallowly embeds the port layer's data model and operations:
the single-destructor TLS registry (`DestrFnClosure`, `destr_fn_info`),
the exit notifiers (`on_process_term`, `on_tls_callback`), the key-creation
facade (`PthreadKeyCreate`), the memoized `getpagesize`, the fatal `__sbrk`
stub, and the stale-file cleanup (`DeleteMatchingFiles`).

Modelling conventions:
* `void*` values are `Option Nat`: `none` is the NULL / empty sentinel,
  `some v` a non-null pointer.
* Destructor function pointers are identifiers (`Nat`); an invocation of a
  destructor is recorded in a log (`DestrCall`) carrying the function, the
  argument it received, and the value the TLS slot held at the moment of the
  call (what a read from within the destructor would observe).
* Fatal conditions (a failed `assert`, `LOG(FATAL, ...)`) are `Except.error`
  carrying the diagnostic; process termination never returns to the caller.
* The platform TLS slot manager (`TlsAlloc` / `TlsGetValue` / `TlsSetValue`)
  is a leaf provided by Windows; it is embedded with its documented contract:
  `TlsAlloc` hands out fresh indices until the slot pool is exhausted, and
  then returns the invalid handle `TLS_OUT_OF_INDEXES` without terminating.
-/

namespace Port

/-- Windows `DWORD dwReason` values passed to TLS / DllMain callbacks. -/
inductive DwReason where
  | DLL_PROCESS_ATTACH
  | DLL_THREAD_ATTACH
  | DLL_THREAD_DETACH
  | DLL_PROCESS_DETACH
deriving DecidableEq, Repr

/-- The unused `HINSTANCE h` callback parameter. -/
abbrev HINSTANCE := Unit

/-- The unused `PVOID pv` callback parameter. -/
abbrev PVOID := Unit

/-- Record of one destructor invocation: which function ran, the pointer it
received as its sole argument, and the value the TLS slot held at the moment
of invocation (what a `TlsGetValue` from within the destructor observes). -/
structure DestrCall where
  fn : Nat
  arg : Nat
  slotAtCall : Option Nat
deriving DecidableEq, Repr

/-- `struct DestrFnClosure` from port.cc: the process-wide registry holding at
most one destructor / key pair. `destr_fn = none` embeds the NULL function
pointer of the zero-initted global. -/
structure DestrFnClosure where
  destr_fn : Option Nat
  key_for_destr_fn_arg : Nat
deriving DecidableEq, Repr

/-- The invalid TLS handle that `TlsAlloc` returns when the slot pool is
exhausted (Windows: `0xFFFFFFFF`). -/
def TLS_OUT_OF_INDEXES : Nat := 4294967295

/-- Process state touched by the threads code of port.cc: the registry global
`destr_fn_info`, the per-thread TLS slot contents of the current thread, the
platform slot allocator (next free index and pool size), and the log of
destructor invocations performed so far. -/
structure PortState where
  destr_fn_info : DestrFnClosure
  tls : Nat → Option Nat
  nextKey : Nat
  slotLimit : Nat
  calls : List DestrCall

/-- Platform leaf `TlsAlloc`: returns a fresh slot index while the pool has
room, and the invalid handle `TLS_OUT_OF_INDEXES` once it is exhausted (the
documented Windows contract; it does not terminate the process). -/
def TlsAlloc (s : PortState) : Nat × PortState :=
  if s.nextKey < s.slotLimit then
    (s.nextKey, { s with nextKey := s.nextKey + 1 })
  else
    (TLS_OUT_OF_INDEXES, s)

/-- Platform leaf `TlsSetValue key v` on the current thread. -/
def TlsSetValue (key : Nat) (v : Option Nat) (s : PortState) : PortState :=
  { s with tls := fun k => if k = key then v else s.tls k }

/-- `on_process_term` from port.cc: if a destructor is registered, read the
registered key's slot, clear the slot (store NULL) and, only if the value read
was non-NULL, invoke the destructor with it.  The appended `DestrCall` records
the slot's content at the moment of invocation, i.e. after the clear. -/
def on_process_term (s : PortState) : PortState :=
  match s.destr_fn_info.destr_fn with
  | none => s
  | some fn =>
    let key := s.destr_fn_info.key_for_destr_fn_arg
    let ptr := s.tls key
    let s1 := TlsSetValue key none s
    match ptr with
    | none => s1
    | some v => { s1 with calls := s1.calls ++ [⟨fn, v, s1.tls key⟩] }

/-- `on_tls_callback` from port.cc: forwards to `on_process_term` exactly when
the reason is `DLL_THREAD_DETACH`, otherwise does nothing. -/
def on_tls_callback (h : HINSTANCE) (dwReason : DwReason) (pv : PVOID)
    (s : PortState) : PortState :=
  if dwReason = DwReason.DLL_THREAD_DETACH then on_process_term s else s

/-- Diagnostic of the failed `assert(destr_fn_info.destr_fn == NULL)`. -/
def assertAlreadyRegisteredMsg : String :=
  "assert failed: destr_fn_info.destr_fn == NULL"

/-- `PthreadKeyCreate` from port.cc: allocate a native slot via `TlsAlloc`
(the result is not checked for exhaustion), and if a destructor was supplied,
assert that none is registered yet and record the destructor / key pair in
`destr_fn_info`.  A failed assert is the fatal `Except.error`. -/
def PthreadKeyCreate (destr_fn : Option Nat) (s : PortState) :
    Except String (Nat × PortState) :=
  let alloc := TlsAlloc s
  let key := alloc.1
  let s1 := alloc.2
  match destr_fn with
  | none => Except.ok (key, s1)
  | some f =>
    match s1.destr_fn_info.destr_fn with
    | some _ => Except.error assertAlreadyRegisteredMsg
    | none =>
      Except.ok (key, { s1 with destr_fn_info := ⟨some f, key⟩ })

/-- `SYSTEM_INFO` fields read by `getpagesize` (platform leaf `GetSystemInfo`). -/
structure SYSTEM_INFO where
  dwPageSize : Nat
  dwAllocationGranularity : Nat
deriving DecidableEq, Repr

/-- `getpagesize` from port.cc.  The C function caches its result in a static
local `int pagesize = 0`; the cache is passed and returned explicitly here.
Returns `(value returned to the caller, new cache contents)`. -/
def getpagesize (si : SYSTEM_INFO) (pagesize : Nat) : Nat × Nat :=
  if pagesize = 0 then
    let p := max si.dwPageSize si.dwAllocationGranularity
    (p, p)
  else
    (pagesize, pagesize)

/-- Modelled from the spec: `LOG(FATAL, ...)` of base/logging.h is not under
src/.  Per the spec it must terminate the process with a clear fatal
diagnostic and never return normally; fatal termination is the
`Except.error` carrying the diagnostic. -/
def LOG_FATAL (msg : String) : Except String Unit :=
  Except.error msg

/-- `__sbrk` from port.cc: `LOG(FATAL, ...)` followed by `return NULL`; the
return is reachable only if the fatal log were to return, which it never
does. -/
def __sbrk (increment : Int) : Except String (Option Nat) :=
  (LOG_FATAL "Windows doesn't implement sbrk!\n").bind (fun _ => Except.ok none)

/-- The per-entry test of `DeleteMatchingFiles`:
`strlen(fname) >= prefix_length && memcmp(fname, prefix, prefix_length) == 0`,
i.e. the file name is at least as long as the prefix and its first
`prefix_length` characters equal the prefix. -/
def nameHasPrefix (pfx fname : String) : Bool :=
  decide (pfx.length ≤ fname.length) && (fname.take pfx.length == pfx)

/-- Outcome of `DeleteMatchingFiles`: the directory entries left on disk and
the names that were logged (`RAW_VLOG`) and unlinked, in processing order. -/
structure DeleteResult where
  remaining : List String
  deletedLog : List String
deriving DecidableEq, Repr

/-- Body of the do-while loop of `DeleteMatchingFiles`: for one enumerated
name, if it passes the prefix test, log it (`RAW_VLOG`) and unlink it from
the directory; otherwise leave the state untouched. -/
def deleteStep (pfx : String) (st : DeleteResult) (fname : String) :
    DeleteResult :=
  if nameHasPrefix pfx fname then
    { remaining := st.remaining.erase fname,
      deletedLog := st.deletedLog ++ [fname] }
  else st

/-- `DeleteMatchingFiles(prefix, full_glob)` from port.cc over a directory
`dir` (list of entry names).  `FindFirstFileA` / `FindNextFileA` enumerate the
entries matching the glob (platform leaf, embedded as the predicate
`globMatch`); each enumerated name that passes the prefix test is logged and
unlinked.  When the glob matches nothing (`INVALID_HANDLE_VALUE`), nothing
happens. -/
def DeleteMatchingFiles (globMatch : String → Bool) (pfx : String)
    (dir : List String) : DeleteResult :=
  let found := dir.filter globMatch
  found.foldl (deleteStep pfx) { remaining := dir, deletedLog := [] }

/-! ## Helper lemmas about the exit notifiers -/

/-- With no registered destructor, `on_process_term` is the identity. -/
theorem on_process_term_of_no_destr (s : PortState)
    (hf : s.destr_fn_info.destr_fn = none) : on_process_term s = s := by
  unfold on_process_term
  rw [hf]

/-- `on_process_term` never touches the registry global. -/
theorem on_process_term_destr_fn_info (s : PortState) :
    (on_process_term s).destr_fn_info = s.destr_fn_info := by
  unfold on_process_term
  split
  · rfl
  · dsimp only
    split <;> rfl

/-- With a registered destructor, `on_process_term` leaves the registered
key's slot holding NULL. -/
theorem on_process_term_clears_slot (s : PortState) (f : Nat)
    (hf : s.destr_fn_info.destr_fn = some f) :
    (on_process_term s).tls s.destr_fn_info.key_for_destr_fn_arg = none := by
  unfold on_process_term
  rw [hf]
  dsimp only
  split <;> simp [TlsSetValue]

/-- When the registered key's slot holds NULL, `on_process_term` performs no
destructor invocation. -/
theorem on_process_term_calls_of_empty (s : PortState)
    (hv : s.tls s.destr_fn_info.key_for_destr_fn_arg = none) :
    (on_process_term s).calls = s.calls := by
  unfold on_process_term
  split
  · rfl
  · dsimp only
    rw [hv]
    rfl

/-! ## Helper lemmas about the cleanup loop of `DeleteMatchingFiles` -/

/-- The names logged and unlinked by the loop are exactly the enumerated
names passing the prefix test, in order. -/
theorem deleteLoop_log (pfx : String) (found : List String) :
    ∀ acc log : List String,
      (found.foldl (deleteStep pfx) ⟨acc, log⟩).deletedLog
        = log ++ found.filter (nameHasPrefix pfx) := by
  induction found with
  | nil => intro acc log; simp
  | cons a tl ih =>
    intro acc log
    rw [List.foldl_cons]
    by_cases h : nameHasPrefix pfx a
    · rw [show deleteStep pfx ⟨acc, log⟩ a = ⟨acc.erase a, log ++ [a]⟩ from by
        simp [deleteStep, h]]
      rw [ih]
      simp [List.filter_cons, h]
    · rw [show deleteStep pfx ⟨acc, log⟩ a = ⟨acc, log⟩ from by
        simp [deleteStep, h]]
      rw [ih]
      simp [List.filter_cons, h]

/-- The entries left on disk by the loop are the starting directory with each
enumerated name passing the prefix test erased. -/
theorem deleteLoop_remaining (pfx : String) (found : List String) :
    ∀ acc log : List String,
      (found.foldl (deleteStep pfx) ⟨acc, log⟩).remaining
        = (found.filter (nameHasPrefix pfx)).foldl List.erase acc := by
  induction found with
  | nil => intro acc log; simp
  | cons a tl ih =>
    intro acc log
    rw [List.foldl_cons]
    by_cases h : nameHasPrefix pfx a
    · rw [show deleteStep pfx ⟨acc, log⟩ a = ⟨acc.erase a, log ++ [a]⟩ from by
        simp [deleteStep, h]]
      rw [ih]
      simp [List.filter_cons, h]
    · rw [show deleteStep pfx ⟨acc, log⟩ a = ⟨acc, log⟩ from by
        simp [deleteStep, h]]
      rw [ih]
      simp [List.filter_cons, h]

/-- Erasing a batch of names from a duplicate-free list keeps exactly the
names outside the batch. -/
theorem foldl_erase_eq_filter (vs : List String) :
    ∀ acc : List String, acc.Nodup →
      vs.foldl List.erase acc = acc.filter (fun x => !vs.contains x) := by
  induction vs with
  | nil => intro acc _; simp
  | cons a tl ih =>
    intro acc h
    rw [List.foldl_cons, ih (acc.erase a) (h.erase a), h.erase_eq_filter,
      List.filter_filter]
    apply List.filter_congr
    intro x _
    simp only [List.contains_cons, Bool.not_or, Bool.and_comm]
    by_cases hxa : x = a
    · simp [hxa]
    · simp [hxa]
      rfl

/-! ## Claim theorems -/

/-- Claim C1: for any slot whose destructor has been registered, if the slot
holds a non-null value and the thread-exit notifier runs
(`on_tls_callback` with `DLL_THREAD_DETACH`), the destructor is invoked
exactly once (the invocation log grows by exactly one record), its sole
argument is exactly the value that was stored in the slot, and the slot holds
NULL immediately afterward. -/
theorem thread_exit_invokes_destructor_once (hinst : HINSTANCE) (pv : PVOID)
    (s : PortState) (f v : Nat)
    (hf : s.destr_fn_info.destr_fn = some f)
    (hv : s.tls s.destr_fn_info.key_for_destr_fn_arg = some v) :
    (on_tls_callback hinst DwReason.DLL_THREAD_DETACH pv s).calls
        = s.calls ++ [⟨f, v, none⟩]
    ∧ (on_tls_callback hinst DwReason.DLL_THREAD_DETACH pv s).tls
        s.destr_fn_info.key_for_destr_fn_arg = none := by
  have hcb : on_tls_callback hinst DwReason.DLL_THREAD_DETACH pv s
      = on_process_term s := by
    unfold on_tls_callback
    rw [if_pos rfl]
  rw [hcb]
  constructor
  · unfold on_process_term
    rw [hf]
    dsimp only
    rw [hv]
    simp [TlsSetValue]
  · exact on_process_term_clears_slot s f hf

/-- Witness for C1: destructor 7 registered on key 0, slot holding 42; a
thread-detach callback logs exactly the invocation of 7 on 42 and leaves the
slot empty. -/
theorem thread_exit_invokes_destructor_once_witness :
    ((⟨⟨some 7, 0⟩, fun k => if k = 0 then some 42 else none, 1, 64, []⟩
        : PortState).destr_fn_info.destr_fn = some 7
      ∧ (⟨⟨some 7, 0⟩, fun k => if k = 0 then some 42 else none, 1, 64, []⟩
        : PortState).tls 0 = some 42)
    ∧ (on_tls_callback () DwReason.DLL_THREAD_DETACH ()
        ⟨⟨some 7, 0⟩, fun k => if k = 0 then some 42 else none, 1, 64, []⟩).calls
        = [⟨7, 42, none⟩]
    ∧ (on_tls_callback () DwReason.DLL_THREAD_DETACH ()
        ⟨⟨some 7, 0⟩, fun k => if k = 0 then some 42 else none, 1, 64, []⟩).tls 0
        = none := by
  have h := thread_exit_invokes_destructor_once () ()
    ⟨⟨some 7, 0⟩, fun k => if k = 0 then some 42 else none, 1, 64, []⟩ 7 42 rfl rfl
  exact ⟨⟨rfl, rfl⟩, h.1.trans rfl, h.2⟩

/-- Claim C2: after a destructor is already registered, any further
`PthreadKeyCreate` call supplying a non-null destructor hits the fatal
`assert(destr_fn_info.destr_fn == NULL)`, while a call supplying a null
destructor succeeds, returns the freshly allocated slot index, and leaves the
registry binding unchanged. -/
theorem key_create_second_registration (s : PortState) (g : Nat)
    (hreg : s.destr_fn_info.destr_fn = some g) (hlim : s.nextKey < s.slotLimit) :
    (∀ f, PthreadKeyCreate (some f) s = Except.error assertAlreadyRegisteredMsg)
    ∧ PthreadKeyCreate none s
        = Except.ok (s.nextKey, { s with nextKey := s.nextKey + 1 })
    ∧ ({ s with nextKey := s.nextKey + 1 } : PortState).destr_fn_info
        = s.destr_fn_info := by
  refine ⟨?_, ?_, rfl⟩
  · intro f
    unfold PthreadKeyCreate TlsAlloc
    rw [if_pos hlim]
    dsimp only
    rw [hreg]
  · unfold PthreadKeyCreate TlsAlloc
    rw [if_pos hlim]

/-- Witness for C2: with destructor 7 already registered and slots available,
registering destructor 9 is the fatal assert, while a null-destructor call
returns fresh slot 1 with the binding for 7 intact. -/
theorem key_create_second_registration_witness :
    ((⟨⟨some 7, 0⟩, fun _ => none, 1, 64, []⟩ : PortState).destr_fn_info.destr_fn
        = some 7
      ∧ (1 : Nat) < 64)
    ∧ PthreadKeyCreate (some 9) ⟨⟨some 7, 0⟩, fun _ => none, 1, 64, []⟩
        = Except.error assertAlreadyRegisteredMsg
    ∧ PthreadKeyCreate none ⟨⟨some 7, 0⟩, fun _ => none, 1, 64, []⟩
        = Except.ok (1, ⟨⟨some 7, 0⟩, fun _ => none, 2, 64, []⟩) := by
  have h := key_create_second_registration
    ⟨⟨some 7, 0⟩, fun _ => none, 1, 64, []⟩ 7 rfl (by decide)
  exact ⟨⟨rfl, by decide⟩, h.1 9, h.2.1.trans rfl⟩

/-- One run of `on_process_term` either leaves the invocation log unchanged
or appends exactly one record whose slot read at invocation time is NULL. -/
theorem on_process_term_calls_growth (s : PortState) :
    (on_process_term s).calls = s.calls
    ∨ ∃ f v, (on_process_term s).calls = s.calls ++ [⟨f, v, none⟩] := by
  cases hf : s.destr_fn_info.destr_fn with
  | none => exact Or.inl (by rw [on_process_term_of_no_destr s hf])
  | some fn =>
    cases hv : s.tls s.destr_fn_info.key_for_destr_fn_arg with
    | none => exact Or.inl (on_process_term_calls_of_empty s hv)
    | some v =>
      right
      refine ⟨fn, v, ?_⟩
      unfold on_process_term
      rw [hf]
      dsimp only
      rw [hv]
      simp [TlsSetValue]

/-- Claim C3: whenever the exit notifier `on_process_term` invokes the
destructor, the slot was overwritten with NULL strictly before the call, so
the slot read recorded at the moment of invocation (what the destructor would
observe) is always the empty sentinel, never the stale pointer. -/
theorem slot_cleared_before_destructor (s : PortState) :
    (on_process_term s).calls = s.calls
    ∨ ∃ f v, (on_process_term s).calls = s.calls ++ [⟨f, v, none⟩] :=
  on_process_term_calls_growth s

/-- Claim C4: running the thread-exit notifier and then the process-exit
notifier on the same thread state invokes the destructor at most once in
total: the second notifier adds no invocation, and the combined log grows by
at most one record. -/
theorem destructor_at_most_once (hinst : HINSTANCE) (pv : PVOID) (s : PortState) :
    (on_process_term (on_tls_callback hinst DwReason.DLL_THREAD_DETACH pv s)).calls
      = (on_tls_callback hinst DwReason.DLL_THREAD_DETACH pv s).calls
    ∧ (on_process_term (on_tls_callback hinst DwReason.DLL_THREAD_DETACH pv s)).calls.length
      ≤ s.calls.length + 1 := by
  have hcb : on_tls_callback hinst DwReason.DLL_THREAD_DETACH pv s
      = on_process_term s := by
    unfold on_tls_callback
    rw [if_pos rfl]
  rw [hcb]
  have hstable : (on_process_term (on_process_term s)).calls
      = (on_process_term s).calls := by
    cases hf : s.destr_fn_info.destr_fn with
    | none =>
      rw [on_process_term_of_no_destr s hf]
      rw [on_process_term_of_no_destr s hf]
    | some f =>
      apply on_process_term_calls_of_empty
      rw [on_process_term_destr_fn_info]
      exact on_process_term_clears_slot s f hf
  refine ⟨hstable, ?_⟩
  rw [hstable]
  rcases on_process_term_calls_growth s with h | ⟨f, v, h⟩
  · rw [h]; omega
  · rw [h]; simp

/-- Claim C5: the exit notifier invokes the destructor zero times when there
is nothing to clean up: the invocation log, every TLS slot, and the registry
binding are unchanged when no destructor is registered or the slot holds
NULL, and with no registration the notifier does nothing at all. -/
theorem exit_notifier_noop (s : PortState)
    (h : s.destr_fn_info.destr_fn = none
        ∨ s.tls s.destr_fn_info.key_for_destr_fn_arg = none) :
    (on_process_term s).calls = s.calls
    ∧ (∀ k, (on_process_term s).tls k = s.tls k)
    ∧ (on_process_term s).destr_fn_info = s.destr_fn_info
    ∧ (s.destr_fn_info.destr_fn = none → on_process_term s = s) := by
  rcases h with hf | hv
  · rw [on_process_term_of_no_destr s hf]
    exact ⟨rfl, fun k => rfl, rfl, fun _ => rfl⟩
  · refine ⟨on_process_term_calls_of_empty s hv, ?_,
      on_process_term_destr_fn_info s,
      fun hf => by rw [on_process_term_of_no_destr s hf]⟩
    intro k
    cases hf : s.destr_fn_info.destr_fn with
    | none => rw [on_process_term_of_no_destr s hf]
    | some fn =>
      unfold on_process_term
      rw [hf]
      dsimp only
      rw [hv]
      dsimp only [TlsSetValue]
      by_cases hk : k = s.destr_fn_info.key_for_destr_fn_arg
      · subst hk
        simp [hv]
      · simp [hk]

/-- Witness for C5: with nothing registered and all slots empty, the notifier
performs no invocation and the state is untouched. -/
theorem exit_notifier_noop_witness :
    (((⟨⟨none, 0⟩, fun _ => none, 0, 64, []⟩ : PortState).destr_fn_info.destr_fn
          = none
        ∨ (⟨⟨none, 0⟩, fun _ => none, 0, 64, []⟩ : PortState).tls 0 = none)
      ∧ (on_process_term ⟨⟨none, 0⟩, fun _ => none, 0, 64, []⟩).calls = []
      ∧ on_process_term ⟨⟨none, 0⟩, fun _ => none, 0, 64, []⟩
          = ⟨⟨none, 0⟩, fun _ => none, 0, 64, []⟩) := by
  refine ⟨Or.inl rfl, ?_, ?_⟩
  · exact (exit_notifier_noop ⟨⟨none, 0⟩, fun _ => none, 0, 64, []⟩ (Or.inl rfl)).1
  · exact (exit_notifier_noop
      ⟨⟨none, 0⟩, fun _ => none, 0, 64, []⟩ (Or.inl rfl)).2.2.2 rfl

/-- Counterexample for C6: in a state whose slot pool is exhausted
(`nextKey = slotLimit = 64`), `PthreadKeyCreate` succeeds silently
(`Except.ok`, no fatal signal) and hands back `TLS_OUT_OF_INDEXES`, which is
not a valid slot index of the pool. -/
theorem key_create_exhaustion_counterexample :
    PthreadKeyCreate none ⟨⟨none, 0⟩, fun _ => none, 64, 64, []⟩
      = Except.ok (TLS_OUT_OF_INDEXES, ⟨⟨none, 0⟩, fun _ => none, 64, 64, []⟩)
    ∧ ¬ TLS_OUT_OF_INDEXES
        < (⟨⟨none, 0⟩, fun _ => none, 64, 64, []⟩ : PortState).slotLimit :=
  ⟨rfl, by decide⟩

/-- Claim C6 as amended: `PthreadKeyCreate` does not check `TlsAlloc` for
exhaustion; when the slot pool is exhausted it silently returns the invalid
handle `TLS_OUT_OF_INDEXES`, and a supplied destructor is even registered
against that invalid handle. -/
theorem key_create_exhaustion_passthrough (s : PortState)
    (hx : s.slotLimit ≤ s.nextKey) (hreg : s.destr_fn_info.destr_fn = none) :
    PthreadKeyCreate none s = Except.ok (TLS_OUT_OF_INDEXES, s)
    ∧ ∀ f, PthreadKeyCreate (some f) s
        = Except.ok (TLS_OUT_OF_INDEXES,
            { s with destr_fn_info := ⟨some f, TLS_OUT_OF_INDEXES⟩ }) := by
  constructor
  · unfold PthreadKeyCreate TlsAlloc
    rw [if_neg (by omega)]
  · intro f
    unfold PthreadKeyCreate TlsAlloc
    rw [if_neg (by omega)]
    dsimp only
    rw [hreg]

/-- Witness for the amended C6: a concrete exhausted state where registering
destructor 7 silently yields the invalid handle. -/
theorem key_create_exhaustion_passthrough_witness :
    ((⟨⟨none, 0⟩, fun _ => none, 64, 64, []⟩ : PortState).slotLimit ≤ 64
      ∧ (⟨⟨none, 0⟩, fun _ => none, 64, 64, []⟩
          : PortState).destr_fn_info.destr_fn = none)
    ∧ PthreadKeyCreate (some 7) ⟨⟨none, 0⟩, fun _ => none, 64, 64, []⟩
        = Except.ok (TLS_OUT_OF_INDEXES,
            ⟨⟨some 7, TLS_OUT_OF_INDEXES⟩, fun _ => none, 64, 64, []⟩) := by
  have h := key_create_exhaustion_passthrough
    ⟨⟨none, 0⟩, fun _ => none, 64, 64, []⟩ (by decide) rfl
  exact ⟨⟨by decide, rfl⟩, (h.2 7).trans rfl⟩

/-- Claim C7: invoking `__sbrk`, with any increment, terminates fatally with
the diagnostic and never returns a value to its caller. -/
theorem sbrk_always_fatal (increment : Int) :
    __sbrk increment = Except.error "Windows doesn't implement sbrk!\n"
    ∧ ∀ v : Option Nat, __sbrk increment ≠ Except.ok v := by
  refine ⟨rfl, ?_⟩
  intro v h
  exact Except.noConfusion h

/-- Claim C8: `getpagesize` returns the same value on every call within a
process (the cache makes a repeated call return the first call's value), and
when the platform reports power-of-two page size and allocation granularity
the returned value is a positive power of two no smaller than the allocation
granularity. -/
theorem getpagesize_spec (si : SYSTEM_INFO) (i j : Nat)
    (h1 : si.dwPageSize = 2 ^ i) (h2 : si.dwAllocationGranularity = 2 ^ j) :
    (∀ c, (getpagesize si (getpagesize si c).2).1 = (getpagesize si c).1)
    ∧ (∃ k, (getpagesize si 0).1 = 2 ^ k)
    ∧ 0 < (getpagesize si 0).1
    ∧ si.dwAllocationGranularity ≤ (getpagesize si 0).1 := by
  have hval : (getpagesize si 0).1
      = max si.dwPageSize si.dwAllocationGranularity := by
    simp [getpagesize]
  have hpow : max si.dwPageSize si.dwAllocationGranularity = 2 ^ max i j := by
    rw [h1, h2]
    rcases le_total i j with hij | hij
    · rw [Nat.max_eq_right (Nat.pow_le_pow_right (by norm_num) hij),
        Nat.max_eq_right hij]
    · rw [Nat.max_eq_left (Nat.pow_le_pow_right (by norm_num) hij),
        Nat.max_eq_left hij]
  refine ⟨?_, ⟨max i j, hval.trans hpow⟩, ?_, ?_⟩
  · intro c
    by_cases hc : c = 0
    · subst hc
      by_cases hm : max si.dwPageSize si.dwAllocationGranularity = 0 <;>
        simp [getpagesize, hm]
    · simp [getpagesize, hc]
  · rw [hval, hpow]
    exact Nat.pow_pos (by norm_num)
  · rw [hval]
    exact le_max_right _ _

/-- Witness for C8: a platform reporting page size 4096 and allocation
granularity 65536 yields 65536 on the first call and on a repeated call. -/
theorem getpagesize_spec_witness :
    ((⟨4096, 65536⟩ : SYSTEM_INFO).dwPageSize = 2 ^ 12
      ∧ (⟨4096, 65536⟩ : SYSTEM_INFO).dwAllocationGranularity = 2 ^ 16)
    ∧ (getpagesize ⟨4096, 65536⟩ 0).1 = 65536
    ∧ (getpagesize ⟨4096, 65536⟩ (getpagesize ⟨4096, 65536⟩ 0).2).1
        = (getpagesize ⟨4096, 65536⟩ 0).1
    ∧ 0 < (getpagesize ⟨4096, 65536⟩ 0).1
    ∧ (⟨4096, 65536⟩ : SYSTEM_INFO).dwAllocationGranularity
        ≤ (getpagesize ⟨4096, 65536⟩ 0).1 := by
  have h := getpagesize_spec ⟨4096, 65536⟩ 12 16 (by norm_num) (by norm_num)
  exact ⟨⟨by norm_num, by norm_num⟩, by decide, h.1 0, h.2.2.1, h.2.2.2⟩

/-- Claim C9: `DeleteMatchingFiles` logs and deletes exactly the directory
entries that match the glob and whose name starts with the prefix; every
other entry (not matching the glob, or not starting with the prefix,
including names shorter than the prefix) is left on disk, and when the glob
matches nothing the directory is untouched and nothing is logged. -/
theorem delete_matching_files_spec (globMatch : String → Bool) (pfx : String)
    (dir : List String) (hnd : dir.Nodup) :
    (DeleteMatchingFiles globMatch pfx dir).deletedLog
        = dir.filter (fun f => globMatch f && nameHasPrefix pfx f)
    ∧ (DeleteMatchingFiles globMatch pfx dir).remaining
        = dir.filter (fun f => !(globMatch f && nameHasPrefix pfx f))
    ∧ (dir.filter globMatch = [] →
        DeleteMatchingFiles globMatch pfx dir = ⟨dir, []⟩) := by
  have hvic : (dir.filter globMatch).filter (nameHasPrefix pfx)
      = dir.filter (fun f => globMatch f && nameHasPrefix pfx f) := by
    rw [List.filter_filter]
    apply List.filter_congr
    intro x _
    rw [Bool.and_comm]
  refine ⟨?_, ?_, ?_⟩
  · show ((dir.filter globMatch).foldl (deleteStep pfx) ⟨dir, []⟩).deletedLog = _
    rw [deleteLoop_log]
    rw [List.nil_append, hvic]
  · show ((dir.filter globMatch).foldl (deleteStep pfx) ⟨dir, []⟩).remaining = _
    rw [deleteLoop_remaining, foldl_erase_eq_filter _ dir hnd]
    apply List.filter_congr
    intro x hx
    have hmem : ((dir.filter globMatch).filter (nameHasPrefix pfx)).contains x
        = (globMatch x && nameHasPrefix pfx x) := by
      rw [hvic]
      by_cases hp : (globMatch x && nameHasPrefix pfx x) = true
      · rw [hp]
        simp [List.mem_filter, hx, hp]
      · rw [Bool.eq_false_iff.mpr hp]
        simp only [List.contains, List.elem_eq_mem, decide_eq_false_iff_not]
        intro hin
        exact hp (List.mem_filter.mp hin).2
    rw [hmem]
  · intro hempty
    show ((dir.filter globMatch).foldl (deleteStep pfx) ⟨dir, []⟩) = _
    rw [hempty]
    rfl

/-- Witness for C9: the spec's example directory with a concrete matcher for
the glob `profile.*.tmp`; the two `profile.*.tmp` entries are logged and
deleted, `other.tmp` survives. -/
theorem delete_matching_files_spec_witness :
    (["profile.1.tmp", "profile.2.tmp", "other.tmp"] : List String).Nodup
    ∧ (DeleteMatchingFiles
        (fun f => (f.take 8 == "profile.") && (f.drop (f.length - 4) == ".tmp"))
        "profile."
        ["profile.1.tmp", "profile.2.tmp", "other.tmp"]).deletedLog
      = ["profile.1.tmp", "profile.2.tmp"]
    ∧ (DeleteMatchingFiles
        (fun f => (f.take 8 == "profile.") && (f.drop (f.length - 4) == ".tmp"))
        "profile."
        ["profile.1.tmp", "profile.2.tmp", "other.tmp"]).remaining
      = ["other.tmp"] := by
  have h := delete_matching_files_spec
    (fun f => (f.take 8 == "profile.") && (f.drop (f.length - 4) == ".tmp"))
    "profile."
    ["profile.1.tmp", "profile.2.tmp", "other.tmp"] (by decide)
  exact ⟨by decide, h.1.trans (by decide), h.2.1.trans (by decide)⟩

/-- Claim C10: `on_tls_callback` invoked with any reason other than
`DLL_THREAD_DETACH` performs no action at all: the destructor is not
invoked, and the registry binding and the TLS slot values are left
unchanged (the whole state is untouched). -/
theorem tls_callback_frame (hinst : HINSTANCE) (r : DwReason) (pv : PVOID)
    (s : PortState) (hr : r ≠ DwReason.DLL_THREAD_DETACH) :
    on_tls_callback hinst r pv s = s := by
  unfold on_tls_callback
  rw [if_neg hr]

/-- Witness for C10: a thread-attach callback on a state with a registered
destructor and a live value changes nothing. -/
theorem tls_callback_frame_witness :
    (DwReason.DLL_THREAD_ATTACH ≠ DwReason.DLL_THREAD_DETACH)
    ∧ on_tls_callback () DwReason.DLL_THREAD_ATTACH ()
        ⟨⟨some 7, 0⟩, fun k => if k = 0 then some 42 else none, 1, 64, []⟩
      = ⟨⟨some 7, 0⟩, fun k => if k = 0 then some 42 else none, 1, 64, []⟩ :=
  ⟨by decide,
   tls_callback_frame () DwReason.DLL_THREAD_ATTACH ()
     ⟨⟨some 7, 0⟩, fun k => if k = 0 then some 42 else none, 1, 64, []⟩
     (by decide)⟩

end Port
